import Mathlib

/-!
Verification development for the Smart-SW-Roller repository: a shallow
embedding in Lean 4 of the WEG Star Wars dice engine (src/dice.py) and the
character-sheet parser (src/parser.py), together with theorems settling the
frozen specification claims.

Modelling conventions:
* Python strings are Lean `String`s; character-level work is done on
  `String.data : List Char`.
* The injectable random source (`random.Random.randint(1, 6)`) is a stream
  `g : Nat → Fin 6`; the `i`-th die face is `(g i).val + 1 ∈ [1, 6]`.
* The unbounded wild-die `while` loop is embedded with explicit fuel and an
  `Option` result; `none` corresponds to the loop not having stopped within
  the given fuel (an all-sixes source), the only source of partiality.
* Python exceptions are modelled with `Except String`; functions the source
  wraps in `try/except` catch them explicitly.
* Python `re` patterns used by dice-code handling are regular over the
  alphabet `{digits, D, +, -}` and are implemented exactly, by splitting on
  the separator the pattern itself is structured around.
-/

instance {ε α : Type} [DecidableEq ε] [DecidableEq α] :
    DecidableEq (Except ε α) := fun a b =>
  match a, b with
  | .ok x, .ok y =>
    if h : x = y then isTrue (by simp [h]) else isFalse (by simp [h])
  | .error x, .error y =>
    if h : x = y then isTrue (by simp [h]) else isFalse (by simp [h])
  | .ok _, .error _ => isFalse (by simp)
  | .error _, .ok _ => isFalse (by simp)

/-- Python `str.strip()`: drop leading and trailing whitespace. -/
def stripChars (cs : List Char) : List Char :=
  ((cs.dropWhile Char.isWhitespace).reverse.dropWhile Char.isWhitespace).reverse

def stripString (s : String) : String := String.mk (stripChars s.data)

/-- Python `str.upper()` (ASCII). -/
def upperStr (s : String) : String := String.mk (s.data.map Char.toUpper)

/-- Python `str.lower()` (ASCII). -/
def lowerStr (s : String) : String := String.mk (s.data.map Char.toLower)

/-- Python `str.capitalize()`: first char upper, rest lower. -/
def pyCapitalize (s : String) : String :=
  match s.data with
  | [] => ""
  | c :: rest => String.mk (c.toUpper :: rest.map Char.toLower)

/-- Python `str.split(sep)` for a one-character separator:
`"a+b".split("+") = ["a","b"]`, `"".split("+") = [""]`. -/
def pySplit (sep : Char) : List Char → List (List Char)
  | [] => [[]]
  | c :: rest =>
    match pySplit sep rest with
    | [] => [[c]]
    | p :: ps => if c = sep then [] :: p :: ps else (c :: p) :: ps

/-- Decimal rendering of a natural number (Python `str(n)` for `n ≥ 0`). -/
def natRepr (n : Nat) : String := Nat.repr n

/-- Decimal rendering of an integer (Python `str(n)`). -/
def intRepr (n : Int) : String :=
  if n < 0 then "-" ++ natRepr n.natAbs else natRepr n.toNat

/-- Numeric value of a list of decimal digit characters. -/
def parseDigits (cs : List Char) : Nat :=
  cs.foldl (fun a c => a * 10 + (c.toNat - 48)) 0

/-- Python `s.isdigit()`-style check: nonempty and all decimal digits. -/
def isDigits (cs : List Char) : Bool := !cs.isEmpty && cs.all Char.isDigit

/-- Python `int(s)` on a string: strip whitespace, optional sign, digits;
`none` models `ValueError`. -/
def strToInt? (s : String) : Option Int :=
  match stripChars s.data with
  | '-' :: ds => if isDigits ds then some (-(parseDigits ds : Int)) else none
  | '+' :: ds => if isDigits ds then some (parseDigits ds : Int) else none
  | ds => if isDigits ds then some (parseDigits ds : Int) else none

/-- The cleanup `dice_code.strip().upper().replace(' ', '')` shared by the
dice-code parser and the dice-code normalizer. -/
def cleanCode (cs : List Char) : List Char :=
  ((stripChars cs).map Char.toUpper).filter (fun c => c != ' ')

/-- Matches `\d+D`: one or more digits followed by a single `D` (used as the
head part of every dice-code pattern). -/
def isDicePart (p : List Char) : Bool :=
  isDigits p.dropLast && p.getLast? == some 'D'

/-- Regex `^\d+D(\+\d+)?$` (the canonical dice-code grammar): on split at
`+`, either a single `\d+D` part or `\d+D` plus one digit group. -/
def matchStd (cs : List Char) : Bool :=
  match pySplit '+' cs with
  | [p] => isDicePart p
  | [p, q] => isDicePart p && isDigits q
  | _ => false

/-- Regex `^\d+D(\+\d+)+$`: `\d+D` followed by one or more `+digits` groups. -/
def matchMulti (cs : List Char) : Bool :=
  match pySplit '+' cs with
  | p :: rest => isDicePart p && !rest.isEmpty && rest.all (fun q => isDigits q)
  | [] => false

/-- Regex `^\d+D-\d+$`: `\d+D` followed by one `-digits` group. -/
def matchNeg (cs : List Char) : Bool :=
  match pySplit '-' cs with
  | [p, q] => isDicePart p && isDigits q
  | _ => false

/-- Regex `^\d+D(\+\d+)?\+\d+$` (the normalizer's chained-bonus pattern):
`\d+D` followed by exactly one or two `+digits` groups. -/
def matchOneOrTwo (cs : List Char) : Bool :=
  match pySplit '+' cs with
  | [p, q] => isDicePart p && isDigits q
  | [p, q, r] => isDicePart p && isDigits q && isDigits r
  | _ => false

/-- Regex `^\d+\+\d+$`: two digit groups joined by `+`. -/
def matchNumPlusNum (cs : List Char) : Bool :=
  match pySplit '+' cs with
  | [p, q] => isDigits p && isDigits q
  | _ => false

/-- `sum(int(x) for x in parts if x.isdigit())`. -/
def sumDigitParts (parts : List (List Char)) : Nat :=
  (parts.filter isDigits).foldl (fun a p => a + parseDigits p) 0

/-- `WEGDiceRoller._parse_dice_code` (src/dice.py lines 102-140): parse a
dice code into `(number of dice, bonus)`; `.error` models the raised
`ValueError` for an invalid format. -/
def parse_dice_code (dice_code : String) : Except String (Nat × Int) :=
  if dice_code = "" then .ok (0, 0)
  else
    let cs := cleanCode dice_code.data
    if matchStd cs then
      match pySplit '+' cs with
      | dice :: rest =>
        .ok (parseDigits (dice.filter (fun c => c != 'D')),
             match rest with
             | [] => (0 : Int)
             | b :: _ => (parseDigits b : Int))
      | [] => .error "Invalid dice code format"
    else if matchMulti cs then
      match pySplit '+' cs with
      | dice :: rest =>
        .ok (parseDigits (dice.filter (fun c => c != 'D')),
             (sumDigitParts rest : Int))
      | [] => .error "Invalid dice code format"
    else if matchNeg cs then
      match pySplit '-' cs with
      | dice :: rest =>
        .ok (parseDigits (dice.filter (fun c => c != 'D')),
             -(match rest with
               | [] => (0 : Int)
               | b :: _ => (parseDigits b : Int)))
      | [] => .error "Invalid dice code format"
    else if isDigits cs then .ok (parseDigits cs, 0)
    else .error ("Invalid dice code format: " ++ String.mk cs)

/-- The `i`-th face produced by the injected random source, as
`randint(1, 6)` yields it: a value in `[1, 6]`. -/
def d6 (g : Nat → Fin 6) (i : Nat) : Nat := (g i).val + 1

/-- The complication note appended by the wild die on a natural 1. -/
def wildComplication : String := "Wild die complication (rolled 1)"

/-- The `while` loop of `WEGDiceRoller._roll_wild_die` (src/dice.py lines
142-169), with explicit fuel: roll, add to the running total; a face of 1
stops with a complication, a face of 6 marks `exploded` and continues, any
other face stops. `none` means the loop did not stop within `fuel` rolls. -/
def rollWildAux (g : Nat → Fin 6) : Nat → Nat → Nat → Bool → List String →
    Option (Nat × Bool × List String)
  | 0, _, _, _, _ => none
  | fuel + 1, i, total, exploded, comps =>
    let r := d6 g i
    let total2 := total + r
    if r = 1 then some (total2, exploded, comps ++ [wildComplication])
    else if r = 6 then rollWildAux g fuel (i + 1) total2 true comps
    else some (total2, exploded, comps)

/-- `WEGDiceRoller._roll_wild_die`, starting from stream position `i`. -/
def roll_wild_die (g : Nat → Fin 6) (i fuel : Nat) :
    Option (Nat × Bool × List String) :=
  rollWildAux g fuel i 0 false []

/-- Outcome of `WEGDiceRoller._check_difficulty` (src/dice.py lines
208-254). -/
structure DifficultyInfo where
  name : String
  target : Option Int
  success : Option Bool
  margin : Option Int
  error : Option String
deriving Repr, DecidableEq

/-- Standard WEG difficulty table of `_check_difficulty`. -/
def difficultiesTable : List (String × Int) :=
  [("very_easy", 1), ("easy", 5), ("moderate", 10), ("difficult", 15),
   ("very_difficult", 20), ("heroic", 25), ("legendary", 30)]

/-- First-match association-list lookup: Python `dict.get(k)` on a dict with
distinct keys. -/
def pyLookup {α : Type} (d : List (String × α)) (k : String) : Option α :=
  (d.find? (fun kv => kv.1 == k)).map Prod.snd

/-- Python `str.title()`: upper-case each letter that starts a run of
letters, lower-case the other letters. -/
def pyTitleAux : Bool → List Char → List Char
  | _, [] => []
  | prev, c :: rest =>
    (if c.isAlpha then (if prev then c.toLower else c.toUpper) else c)
      :: pyTitleAux c.isAlpha rest

def pyTitle (s : String) : String := String.mk (pyTitleAux false s.data)

/-- `WEGDiceRoller._check_difficulty` (src/dice.py lines 208-254). -/
def check_difficulty (total : Int) (difficulty : String) : DifficultyInfo :=
  let key := String.mk (((lowerStr difficulty).data).map
    (fun c => if c = ' ' then '_' else c))
  match pyLookup difficultiesTable key with
  | some target =>
    { name := pyTitle difficulty, target := some target,
      success := some (decide (total ≥ target)),
      margin := some (total - target), error := none }
  | none =>
    match strToInt? difficulty with
    | some target =>
      { name := "Target " ++ intRepr target, target := some target,
        success := some (decide (total ≥ target)),
        margin := some (total - target), error := none }
    | none =>
      { name := difficulty, target := none, success := none, margin := none,
        error := some ("Unknown difficulty: " ++ difficulty) }

/-- `WEGDiceRoller._create_breakdown` (src/dice.py lines 171-206). -/
def create_breakdown (dice_results : List Nat) (bonus : Int)
    (wild_die_result : Option Nat) (wild_exploded : Bool) : String :=
  if dice_results.isEmpty then
    if bonus ≠ 0 then "No dice + " ++ intRepr bonus else "0"
  else
    let pair : List Nat × Option Nat :=
      match wild_die_result with
      | some _ => (dice_results.dropLast, dice_results.getLast?)
      | none => (dice_results, none)
    let parts1 : List String :=
      if !pair.1.isEmpty then
        ["[" ++ String.intercalate " + " (pair.1.map natRepr) ++ "]"]
      else []
    let parts2 : List String :=
      match pair.2 with
      | some w =>
        ["Wild: " ++ (if wild_exploded then "**" ++ natRepr w ++ "**"
                      else natRepr w)]
      | none => []
    let parts3 : List String :=
      if bonus > 0 then ["+" ++ intRepr bonus]
      else if bonus < 0 then [intRepr bonus] else []
    String.intercalate " " (parts1 ++ parts2 ++ parts3) ++
      " = **" ++ intRepr ((dice_results.sum : Int) + bonus) ++ "**"

/-- The result dictionary of `WEGDiceRoller.roll` (the `DiceResult`
dataclass shape plus the extra keys `difficulty`, `success`, `error` the
method puts in its returned dict; keys absent in the error dict are modelled
as `none` / `[]` / `0`). -/
structure DiceResult where
  total : Int
  dice_code : String
  individual_dice : List Nat
  bonus : Int
  breakdown : String
  wild_die_result : Option Nat
  wild_die_exploded : Bool
  complications : List String
  difficulty : Option DifficultyInfo
  success : Option Bool
  error : Option String
deriving Repr, DecidableEq

/-- The dictionary returned by `roll`'s `except` branch (src/dice.py lines
94-100). -/
def mkErrorRoll (dice_code msg : String) : DiceResult :=
  { total := 0, dice_code := dice_code, individual_dice := [], bonus := 0,
    breakdown := "Error: " ++ msg, wild_die_result := none,
    wild_die_exploded := false, complications := [], difficulty := none,
    success := none, error := some ("Error rolling dice: " ++ msg) }

/-- `WEGDiceRoller.roll` (src/dice.py lines 29-100). `g` is the injected
random source, `fuel` bounds the wild-die loop, `useWild` is
`self.use_wild_die`. The regular dice consume stream positions
`0 .. regular-1` and the wild die continues from position `regular`. -/
def roll (g : Nat → Fin 6) (fuel : Nat) (useWild : Bool) (dice_code : String)
    (modifier : Int) (difficulty : Option String) : Option DiceResult :=
  match parse_dice_code dice_code with
  | .error msg => some (mkErrorRoll dice_code msg)
  | .ok (numDice, bonus) =>
    let totalBonus := bonus + modifier
    if numDice ≤ 0 then
      let diffInfo := difficulty.map (check_difficulty totalBonus)
      some { total := totalBonus, dice_code := dice_code,
             individual_dice := [], bonus := totalBonus,
             breakdown := if totalBonus ≠ 0 then
                 "No dice + " ++ intRepr totalBonus else "0",
             wild_die_result := none, wild_die_exploded := false,
             complications := [], difficulty := diffInfo,
             success := diffInfo.bind (fun x => x.success), error := none }
    else
      let regular := if useWild then numDice - 1 else numDice
      let regularRolls := (List.range regular).map (d6 g)
      if useWild then
        match roll_wild_die g regular fuel with
        | none => none
        | some (wt, wex, wcomps) =>
          let diceResults := regularRolls ++ [wt]
          let total : Int := (diceResults.sum : Int) + totalBonus
          let diffInfo := difficulty.map (check_difficulty total)
          some { total := total, dice_code := dice_code,
                 individual_dice := diceResults, bonus := totalBonus,
                 breakdown := create_breakdown diceResults totalBonus
                   (some wt) wex,
                 wild_die_result := some wt, wild_die_exploded := wex,
                 complications := wcomps, difficulty := diffInfo,
                 success := diffInfo.bind (fun x => x.success),
                 error := none }
      else
        let total : Int := (regularRolls.sum : Int) + totalBonus
        let diffInfo := difficulty.map (check_difficulty total)
        some { total := total, dice_code := dice_code,
               individual_dice := regularRolls, bonus := totalBonus,
               breakdown := create_breakdown regularRolls totalBonus
                 none false,
               wild_die_result := none, wild_die_exploded := false,
               complications := [], difficulty := diffInfo,
               success := diffInfo.bind (fun x => x.success),
               error := none }

/-! ### Sheet parser (src/parser.py) -/

/-- A parsed JSON value, as `json.loads` produces it (objects with distinct
keys, in document order); `num` covers the integral numbers the sheets use. -/
inductive JsonVal : Type
  | str (s : String)
  | num (n : Int)
  | bool (b : Bool)
  | null
  | arr (xs : List JsonVal)
  | obj (fields : List (String × JsonVal))
deriving Repr

/-- Python truthiness `bool(v)` of a JSON value. -/
def pythonTruthy : JsonVal → Bool
  | .str s => s != ""
  | .num n => n != 0
  | .bool b => b
  | .null => false
  | .arr xs => !xs.isEmpty
  | .obj fs => !fs.isEmpty

/-- Python `str(v)` of a JSON value. The exact rendering of list and dict
values is abbreviated: all this development relies on is that it contains a
bracket, so it can never be mistaken for a dice code. -/
def pythonStr : JsonVal → String
  | .str s => s
  | .num n => intRepr n
  | .bool b => if b then "True" else "False"
  | .null => "None"
  | .arr xs => "[" ++ natRepr xs.length ++ " items]"
  | .obj fs => "\x7b" ++ natRepr fs.length ++ " items\x7d"

/-- Python `int(v)` on a JSON value; `.error` models the raised
`ValueError` / `TypeError`. -/
def pyInt : JsonVal → Except String Int
  | .num n => .ok n
  | .bool b => .ok (if b then 1 else 0)
  | .str s =>
    match strToInt? s with
    | some n => .ok n
    | none => .error "ValueError: invalid literal for int"
  | _ => .error "TypeError: int argument must be a number"

/-- `dict.get(k, default)`. -/
def pyGetD (d : List (String × JsonVal)) (k : String) (dflt : JsonVal) :
    JsonVal :=
  (pyLookup d k).getD dflt

/-- View a JSON value as a dict; `none` models the `AttributeError` raised
by calling dict methods on a non-dict. -/
def asObj : JsonVal → Option (List (String × JsonVal))
  | .obj fs => some fs
  | _ => none

/-- Python dict assignment `d[k] = v`: update in place if the key exists,
else append. -/
def dictInsert {α : Type} (d : List (String × α)) (k : String) (v : α) :
    List (String × α) :=
  if d.any (fun kv => kv.1 == k) then
    d.map (fun kv => if kv.1 == k then (k, v) else kv)
  else d ++ [(k, v)]

/-- `WEGStarWarsParser.attributes`: the six fixed attribute names. -/
def attributesList : List String :=
  ["dexterity", "knowledge", "mechanical", "perception", "strength",
   "technical"]

/-- `WEGStarWarsParser.attribute_aliases`. -/
def attribute_aliases : List (String × String) :=
  [("dex", "dexterity"), ("know", "knowledge"), ("mech", "mechanical"),
   ("perc", "perception"), ("str", "strength"), ("tech", "technical")]

/-- `WEGStarWarsParser.skill_categories`: skills by governing attribute. -/
def skill_categories : List (String × List String) :=
  [("dexterity",
    ["blaster", "brawling_parry", "dodge", "firearms",
     "lightsaber", "melee_combat", "melee_parry", "pick_pocket",
     "running", "thrown_weapons", "vehicle_blasters", "archaic_guns",
     "blaster_artillery", "bowcaster", "grenade", "heavy_weapons"]),
   ("knowledge",
    ["alien_species", "bureaucracy", "cultures", "intimidation",
     "languages", "planetary_systems", "scholar", "streetwise",
     "survival", "tactics", "technology", "willpower", "business",
     "law_enforcement", "value", "jedi_lore", "sith_lore"]),
   ("mechanical",
    ["astrogation", "beast_riding", "communications", "computer_programming",
     "piloting", "repulsorlift_operation", "sensors", "space_transports",
     "starfighter_piloting", "starship_gunnery", "starship_shields",
     "swoop_operation", "walker_operation", "capital_ship_piloting",
     "capital_ship_gunnery", "capital_ship_shields"]),
   ("perception",
    ["bargain", "command", "con", "forgery", "gambling",
     "hide", "investigation", "persuasion", "search", "sneak",
     "artist", "entertain", "sleight_of_hand"]),
   ("strength",
    ["brawling", "climbing", "jumping", "lifting", "stamina", "swimming"]),
   ("technical",
    ["armor_repair", "blaster_repair", "computer_repair",
     "demolitions", "droid_programming", "droid_repair",
     "first_aid", "lightsaber_repair", "medicine", "repulsorlift_repair",
     "security", "space_transports_repair", "starfighter_repair",
     "capital_ship_repair", "walker_repair"])]

/-- `WEGStarWarsParser.force_powers`. -/
def force_powers : List String :=
  ["accelerate_healing", "absorb_dissipate_energy", "concentration",
   "control_pain", "detoxify_poison", "enhance_attribute",
   "hibernation_trance", "reduce_injury", "remain_conscious", "resist_stun",
   "combat_sense", "danger_sense", "life_detection", "life_sense",
   "magnify_senses", "receptive_telepathy", "sense_force", "telekinesis",
   "lightsaber_combat", "projective_telepathy", "affect_mind",
   "control_mind", "transfer_force"]

/-- `WEGStarWarsParser._normalize_dice_code` (src/parser.py lines 332-357):
normalize dice codes to the canonical `ND[+M]` format, degrading anything
malformed to the safe default `"2D"`. -/
def normalize_dice_code (dice_code : String) : String :=
  if dice_code = "" then "2D"
  else
    let cs := cleanCode dice_code.data
    if matchStd cs then String.mk cs
    else if matchOneOrTwo cs then
      match pySplit '+' cs with
      | base :: rest =>
        let totalBonus := sumDigitParts rest
        if totalBonus > 0 then String.mk base ++ "+" ++ natRepr totalBonus
        else String.mk base
      | [] => "2D"
    else if isDigits cs then String.mk cs ++ "D"
    else if matchNumPlusNum cs then
      match pySplit '+' cs with
      | [a, b] => String.mk a ++ "D+" ++ String.mk b
      | _ => "2D"
    else "2D"

/-- Separator class of the skill-name normalizer: regex `[\s\-]`. -/
def isSep (c : Char) : Bool := c.isWhitespace || c = '-'

/-- Regex `re.sub(r'[\s\-]+', '_', s)`: collapse each run of whitespace or
hyphens into a single underscore; the flag records whether we are inside a
run that already emitted its underscore. -/
def collapseSepAux : Bool → List Char → List Char
  | _, [] => []
  | inSep, c :: rest =>
    if isSep c then
      if inSep then collapseSepAux true rest
      else '_' :: collapseSepAux true rest
    else c :: collapseSepAux false rest

def collapseSep (cs : List Char) : List Char := collapseSepAux false cs

/-- `WEGStarWarsParser._normalize_skill_name`'s alias table. -/
def skill_aliases : List (String × String) :=
  [("lightsabre", "lightsaber"), ("melee", "melee_combat"),
   ("brawl", "brawling"), ("pilot", "piloting"), ("astro", "astrogation"),
   ("computer", "computer_programming"), ("repair", "blaster_repair"),
   ("medicine", "medicine"), ("first_aid", "first_aid")]

/-- `WEGStarWarsParser._normalize_skill_name` (src/parser.py lines
359-378). -/
def normalize_skill_name (skill_name : String) : String :=
  let normalized :=
    String.mk (collapseSep (stripChars (lowerStr skill_name).data))
  (pyLookup skill_aliases normalized).getD normalized

/-- The flattened `all_skills` list of `_is_valid_skill`. -/
def all_skills : List String := (skill_categories.map Prod.snd).flatten

/-- `WEGStarWarsParser._is_valid_skill` (src/parser.py lines 380-383). -/
def is_valid_skill (skill_name : String) : Bool :=
  all_skills.contains skill_name || force_powers.contains skill_name

/-- `WEGStarWarsParser._safe_int` (src/parser.py lines 385-390): coerce a
string to an int, falling back to the default when the string is empty,
whitespace, or not a number. -/
def safe_int (value : String) (default : Int) : Int :=
  if value ≠ "" ∧ stripString value ≠ "" then
    match strToInt? value with
    | some n => n
    | none => default
  else default

/-- `WEGStarWarsParser.get_skill_attribute` (src/parser.py lines 392-399):
first category whose (normalized) skills contain the normalized query. -/
def get_skill_attribute (skill_name : String) : Option String :=
  let normalized := normalize_skill_name skill_name
  (skill_categories.find? (fun kv =>
    kv.2.any (fun s2 => normalize_skill_name s2 == normalized))).map Prod.fst

/-- The `StarWarsCharacter` dataclass (src/parser.py lines 8-35).
`name`, `template` and the equipment entries are kept as raw JSON values,
exactly as the Python code stores whatever the document contained;
`attributes` and `skills` are insertion-ordered dicts. -/
structure StarWarsCharacter where
  name : JsonVal
  template : JsonVal
  attributes : List (String × String)
  skills : List (String × String)
  force_points : Int
  character_points : Int
  dark_side_points : Int
  force_sensitive : Bool
  equipment : List JsonVal
  credits : Int
deriving Repr

/-- `StarWarsCharacter.to_dict` (src/parser.py lines 22-35), producing the
JSON document the dict serializes to. -/
def to_dict (c : StarWarsCharacter) : JsonVal :=
  .obj [("name", c.name), ("template", c.template),
        ("attributes", .obj (c.attributes.map (fun p => (p.1, .str p.2)))),
        ("skills", .obj (c.skills.map (fun p => (p.1, .str p.2)))),
        ("force_points", .num c.force_points),
        ("character_points", .num c.character_points),
        ("dark_side_points", .num c.dark_side_points),
        ("force_sensitive", .bool c.force_sensitive),
        ("equipment", .arr c.equipment),
        ("credits", .num c.credits)]

/-- First truthy value of a Python `or`-chain of `dict.get` probes. -/
def firstTruthy (l : List (Option JsonVal)) : Option JsonVal :=
  (l.filterMap id).find? pythonTruthy

/-- The per-attribute probing of `_parse_json_data` (src/parser.py lines
162-172): exact name, capitalized, upper-case, then
`attribute_aliases.get(attr, attr)` (which is `attr` again for the six full
names); the first truthy hit is normalized, a miss defaults to `"2D"`. -/
def jsonAttrValue (attrData : List (String × JsonVal)) (attr : String) :
    String :=
  match firstTruthy
      [pyLookup attrData attr,
       pyLookup attrData (pyCapitalize attr),
       pyLookup attrData (upperStr attr),
       pyLookup attrData ((pyLookup attribute_aliases attr).getD attr)] with
  | some v => normalize_dice_code (pythonStr v)
  | none => "2D"

/-- One iteration of the skills loop of `_parse_json_data` (src/parser.py
lines 178-181): the key is normalized and stored whenever its dice code is
truthy — with no validity check. -/
def jsonSkillStep (acc : List (String × String)) (kv : String × JsonVal) :
    List (String × String) :=
  let normalizedSkill := normalize_skill_name kv.1
  if pythonTruthy kv.2 then
    dictInsert acc normalizedSkill (normalize_dice_code (pythonStr kv.2))
  else acc

/-- The skills loop of `_parse_json_data` (src/parser.py lines 174-181). -/
def jsonSkills (skillsData : List (String × JsonVal)) :
    List (String × String) :=
  skillsData.foldl jsonSkillStep []

/-- The equipment coercion of `_parse_json_data` (src/parser.py lines
189-194). -/
def jsonEquipment : JsonVal → List JsonVal
  | .str s =>
    (((pySplit ',' s.data).map stripChars).filter
      (fun p => !p.isEmpty)).map (fun p => .str (String.mk p))
  | .arr xs => xs
  | _ => []

/-- `WEGStarWarsParser._parse_json_data` (src/parser.py lines 152-209).
`.error` models the exceptions the method lets escape: `AttributeError`
when a field that is probed with `.get` is not a dict, and
`ValueError`/`TypeError` from `int()` on a non-numeric field. -/
def parse_json_data (j : JsonVal) : Except String StarWarsCharacter :=
  match asObj j with
  | none => .error "AttributeError: data is not a dict"
  | some data =>
    let name := pyGetD data "name" (pyGetD data "character_name"
      (.str "Unknown"))
    let template := pyGetD data "template" (pyGetD data "character_template"
      (.str "Unknown"))
    match asObj (pyGetD data "attributes" (pyGetD data "stats" (.obj []))) with
    | none => .error "AttributeError: attributes is not a dict"
    | some attrData =>
      match asObj (pyGetD data "skills" (.obj [])) with
      | none => .error "AttributeError: skills is not a dict"
      | some skillsData =>
        match pyInt (pyGetD data "force_points"
                (pyGetD data "forcePoints" (.num 1))),
              pyInt (pyGetD data "character_points"
                (pyGetD data "characterPoints" (.num 5))),
              pyInt (pyGetD data "dark_side_points"
                (pyGetD data "darkSidePoints" (.num 0))),
              pyInt (pyGetD data "credits"
                (pyGetD data "money" (.num 1000))) with
        | .ok fp, .ok cp, .ok dsp, .ok cr =>
          .ok { name := name, template := template,
                attributes := attributesList.map
                  (fun attr => (attr, jsonAttrValue attrData attr)),
                skills := jsonSkills skillsData,
                force_points := fp, character_points := cp,
                dark_side_points := dsp,
                force_sensitive := pythonTruthy (pyGetD data "force_sensitive"
                  (pyGetD data "forceSensitive" (.bool false))),
                equipment := jsonEquipment
                  (pyGetD data "equipment" (.arr [])),
                credits := cr }
        | .error e, _, _, _ => .error e
        | _, .error e, _, _ => .error e
        | _, _, .error e, _ => .error e
        | _, _, _, .error e => .error e

/-- CSV double-key probe `data.get(k1, data.get(k2, dflt))`. -/
def csvField (row : List (String × String)) (k1 k2 dflt : String) : String :=
  (pyLookup row k1).getD ((pyLookup row k2).getD dflt)

/-- First nonempty value of the CSV attribute `or`-chain. -/
def firstTruthyStr (l : List (Option String)) : Option String :=
  (l.filterMap id).find? (fun s => s != "")

/-- The per-attribute probing of `_parse_csv_data` (src/parser.py lines
218-228): capitalized, upper-case, exact, then `"<Attr> Dice"`; stored
when the stripped value is nonempty, else `"2D"`. -/
def csvAttrValue (row : List (String × String)) (attr : String) : String :=
  match firstTruthyStr
      [pyLookup row (pyCapitalize attr),
       pyLookup row (upperStr attr),
       pyLookup row attr,
       pyLookup row (pyCapitalize attr ++ " Dice")] with
  | some v =>
    if stripString v ≠ "" then normalize_dice_code (stripString v) else "2D"
  | none => "2D"

/-- The skills loop of `_parse_csv_data` (src/parser.py lines 231-236):
every column with a nonblank value whose normalized name is a recognized
skill becomes a skill entry. -/
def csvSkills (row : List (String × String)) : List (String × String) :=
  row.foldl (fun acc kv =>
    if kv.2 ≠ "" ∧ stripString kv.2 ≠ "" then
      let normalizedKey := normalize_skill_name kv.1
      if is_valid_skill normalizedKey then
        dictInsert acc normalizedKey (normalize_dice_code (stripString kv.2))
      else acc
    else acc) []

/-- `WEGStarWarsParser._parse_csv_data` (src/parser.py lines 211-262), over
one `csv.DictReader` row (an insertion-ordered dict of strings). -/
def parse_csv_data (row : List (String × String)) : StarWarsCharacter :=
  { name := .str (csvField row "Name" "Character Name" "Unknown"),
    template := .str (csvField row "Template" "Character Template" "Unknown"),
    attributes := attributesList.map (fun attr => (attr, csvAttrValue row attr)),
    skills := csvSkills row,
    force_points := safe_int (csvField row "Force Points" "Force_Points" "1") 1,
    character_points :=
      safe_int (csvField row "Character Points" "Character_Points" "5") 5,
    dark_side_points :=
      safe_int (csvField row "Dark Side Points" "Dark_Side_Points" "0") 0,
    force_sensitive :=
      ["yes", "true", "1", "y"].contains
        (lowerStr (csvField row "Force Sensitive" "Force_Sensitive" "")),
    equipment :=
      (let equipmentStr := (pyLookup row "Equipment").getD ""
       if equipmentStr ≠ "" then
         (((pySplit ',' equipmentStr.data).map stripChars).filter
           (fun p => !p.isEmpty)).map (fun p => .str (String.mk p))
       else []),
    credits := safe_int ((pyLookup row "Credits").getD "1000") 1000 }

/-- The regex-extraction results `_parse_text_data` (src/parser.py lines
264-330) works from. The `re` engine itself is not embedded; instead each
`re.search`/`re.finditer` outcome over the free text is an input field here,
and everything the method does with those captures is embedded faithfully.
`attrMatch` gives, per attribute, the captured dice-code text (if the
attribute label was found); `skillMatches` lists the (name, dice-code)
capture pairs of the generic skill scan in order; the numeric captures are
naturals because their pattern is `(\d+)`. -/
structure TextExtraction where
  nameMatch : Option String
  templateMatch : Option String
  attrMatch : String → Option String
  skillMatches : List (String × String)
  fpMatch : Option Nat
  cpMatch : Option Nat
  dspMatch : Option Nat
  creditsMatch : Option Nat
  forceSensitive : Bool
  equipmentMatch : Option String

/-- The skills loop of `_parse_text_data` (src/parser.py lines 287-294). -/
def textSkills (ms : List (String × String)) : List (String × String) :=
  ms.foldl (fun acc kv =>
    let skillName := normalize_skill_name kv.1
    if is_valid_skill skillName then
      dictInsert acc skillName (normalize_dice_code kv.2)
    else acc) []

/-- `WEGStarWarsParser._parse_text_data` (src/parser.py lines 264-330),
over the regex-extraction record. -/
def parse_text_data (ext : TextExtraction) : StarWarsCharacter :=
  { name := .str ((ext.nameMatch.map stripString).getD "Unknown"),
    template := .str ((ext.templateMatch.map stripString).getD "Unknown"),
    attributes := attributesList.map (fun attr =>
      (attr, match ext.attrMatch attr with
             | some m => normalize_dice_code m
             | none => "2D")),
    skills := textSkills ext.skillMatches,
    force_points := (ext.fpMatch.map (Nat.cast)).getD 1,
    character_points := (ext.cpMatch.map (Nat.cast)).getD 5,
    dark_side_points := (ext.dspMatch.map (Nat.cast)).getD 0,
    force_sensitive := ext.forceSensitive,
    equipment :=
      (match ext.equipmentMatch with
       | some t =>
         ((((pySplit ',' t.data).map (fun p =>
             (pySplit '\n' p).map stripChars)).flatten).filter
           (fun p => !p.isEmpty)).map (fun p => .str (String.mk p))
       | none => []),
    credits := (ext.creditsMatch.map (Nat.cast)).getD 1000 }

/-- `WEGStarWarsParser.calculate_untrained_skill_from_data` (src/parser.py
lines 409-415): the live untrained-skill policy, used by the bot — the
governing attribute's stored dice code, verbatim, with no penalty. A
separate `calculate_untrained_skill` variant exists in the source that
applies a one-die penalty, but it has no callers. `.error` models the
`AttributeError` when `character_data['attributes']` is not a dict. -/
def calculate_untrained_skill_from_data (data : List (String × JsonVal))
    (skill_name : String) : Except String JsonVal :=
  let governingAttr := get_skill_attribute skill_name
  match asObj (pyGetD data "attributes" (.obj [])) with
  | none => .error "AttributeError: attributes is not a dict"
  | some attrs =>
    .ok (match governingAttr with
         | none => .str "2D"
         | some a => ((pyLookup attrs a).getD (.str "2D")))

/-- Characters a canonical dice code is built from. -/
def goodChar (c : Char) : Bool := c.isDigit || c = 'D' || c = '+'

/-- The dice-code invariant of claim C7: all six attribute names present
(in canonical order), and every stored attribute or skill dice code
matches the canonical grammar. -/
def charDiceCodesOk (c : StarWarsCharacter) : Prop :=
  c.attributes.map Prod.fst = attributesList ∧
  (∀ p ∈ c.attributes, matchStd p.2.data = true) ∧
  (∀ p ∈ c.skills, matchStd p.2.data = true)

/-- The stored-field invariants of claim C9: the attribute map has exactly
the six canonical keys (in order) with grammar-matching codes, and the
skill map has distinct, normalization-fixpoint keys with grammar-matching
codes — exactly what every parser-produced `Character` satisfies. -/
def charStoredInv (c : StarWarsCharacter) : Prop :=
  c.attributes.map Prod.fst = attributesList ∧
  (∀ p ∈ c.attributes, matchStd p.2.data = true) ∧
  (c.skills.map Prod.fst).Nodup ∧
  (∀ p ∈ c.skills, normalize_skill_name p.1 = p.1 ∧
    matchStd p.2.data = true)

/-! ### Helper lemmas: characters, splitting, and the dice-code grammar -/

theorem isDigit_toNat {c : Char} (h : c.isDigit = true) :
    48 ≤ c.toNat ∧ c.toNat ≤ 57 := by
  simp only [Char.isDigit, Bool.and_eq_true, decide_eq_true_eq] at h
  obtain ⟨h1, h2⟩ := h
  exact ⟨UInt32.le_toNat_of_le (by decide) h1,
    UInt32.toNat_le_of_le (by decide) h2⟩

theorem toUpper_of_isDigit {c : Char} (h : c.isDigit = true) :
    c.toUpper = c := by
  have h2 := isDigit_toNat h
  rw [Char.toUpper, if_neg]
  omega

theorem isWhitespace_eq_false_of_isDigit {c : Char} (h : c.isDigit = true) :
    c.isWhitespace = false := by
  have h2 := isDigit_toNat h
  simp only [Char.isWhitespace, Bool.or_eq_false_iff, decide_eq_false_iff_not]
  refine ⟨⟨⟨?_, ?_⟩, ?_⟩, ?_⟩ <;> intro hc <;> subst hc <;> simp_all

theorem goodChar_toUpper {c : Char} (h : goodChar c = true) : c.toUpper = c := by
  simp only [goodChar, Bool.or_eq_true, decide_eq_true_eq] at h
  rcases h with (h | h) | h
  · exact toUpper_of_isDigit h
  · subst h; decide
  · subst h; decide

theorem goodChar_not_ws {c : Char} (h : goodChar c = true) :
    c.isWhitespace = false := by
  simp only [goodChar, Bool.or_eq_true, decide_eq_true_eq] at h
  rcases h with (h | h) | h
  · exact isWhitespace_eq_false_of_isDigit h
  · subst h; decide
  · subst h; decide

theorem goodChar_ne_space {c : Char} (h : goodChar c = true) :
    (c != ' ') = true := by
  simp only [goodChar, Bool.or_eq_true, decide_eq_true_eq] at h
  rcases h with (h | h) | h
  · simp only [bne_iff_ne]; intro hc; subst hc; simp_all
  · subst h; decide
  · subst h; decide

theorem dropWhile_eq_self_of_all {p : Char → Bool} :
    ∀ {cs : List Char}, (∀ c ∈ cs, p c = false) → cs.dropWhile p = cs
  | [], _ => rfl
  | c :: rest, h => by
    rw [List.dropWhile_cons, if_neg]
    simp [h c (by simp)]

theorem stripChars_eq_self {cs : List Char}
    (h : ∀ c ∈ cs, c.isWhitespace = false) : stripChars cs = cs := by
  unfold stripChars
  rw [dropWhile_eq_self_of_all h, dropWhile_eq_self_of_all (by simpa using h),
    List.reverse_reverse]

theorem pySplit_ne_nil (sep : Char) : ∀ cs, pySplit sep cs ≠ [] := by
  intro cs
  induction cs with
  | nil => simp [pySplit]
  | cons c rest ih =>
    cases hr : pySplit sep rest with
    | nil => exact absurd hr ih
    | cons p ps =>
      have h1 : pySplit sep (c :: rest) =
          match pySplit sep rest with
          | [] => [[c]]
          | p3 :: ps3 =>
            if c = sep then [] :: p3 :: ps3 else (c :: p3) :: ps3 := rfl
      rw [h1, hr]
      show (if c = sep then [] :: p :: ps else (c :: p) :: ps) ≠ []
      split <;> simp

theorem pySplit_sepFree (sep : Char) :
    ∀ (cs : List Char), (∀ c ∈ cs, c ≠ sep) → pySplit sep cs = [cs]
  | [], _ => rfl
  | c :: rest, h => by
    have hr := pySplit_sepFree sep rest (fun x hx => h x (by simp [hx]))
    simp only [pySplit, hr]
    rw [if_neg (h c (by simp))]

theorem pySplit_append_sep (sep : Char) :
    ∀ (p q : List Char), (∀ c ∈ p, c ≠ sep) →
      pySplit sep (p ++ sep :: q) = p :: pySplit sep q
  | [], q, _ => by
    cases hq : pySplit sep q with
    | nil => exact absurd hq (pySplit_ne_nil sep q)
    | cons p2 ps2 =>
      have h1 : pySplit sep ([] ++ sep :: q) =
          match pySplit sep q with
          | [] => [[sep]]
          | p3 :: ps3 =>
            if sep = sep then [] :: p3 :: ps3 else (sep :: p3) :: ps3 := rfl
      rw [h1, hq]
      show (if sep = sep then [] :: p2 :: ps2 else (sep :: p2) :: ps2) =
        [] :: p2 :: ps2
      rw [if_pos rfl]
  | c :: p, q, h => by
    have hr := pySplit_append_sep sep p q (fun x hx => h x (by simp [hx]))
    have h1 : pySplit sep ((c :: p) ++ sep :: q) =
        match pySplit sep (p ++ sep :: q) with
        | [] => [[c]]
        | p3 :: ps3 =>
          if c = sep then [] :: p3 :: ps3 else (c :: p3) :: ps3 := rfl
    rw [h1, hr]
    show (if c = sep then [] :: p :: pySplit sep q
          else (c :: p) :: pySplit sep q) = (c :: p) :: pySplit sep q
    rw [if_neg (h c (by simp))]

theorem isDicePart_decomp {p : List Char} (h : isDicePart p = true) :
    ∃ ds, p = ds ++ ['D'] ∧ isDigits ds = true := by
  unfold isDicePart at h
  rw [Bool.and_eq_true] at h
  obtain ⟨h1, h2⟩ := h
  rw [beq_iff_eq] at h2
  have hne : p ≠ [] := by intro hp; subst hp; simp at h2
  refine ⟨p.dropLast, ?_, h1⟩
  have h3 := List.dropLast_concat_getLast hne
  rw [List.getLast?_eq_getLast p hne] at h2
  injection h2 with h2
  rw [h2] at h3
  exact h3.symm

theorem digits_chars_good {ds : List Char} (h : isDigits ds = true) :
    ∀ c ∈ ds, goodChar c = true := by
  unfold isDigits at h
  rw [Bool.and_eq_true, List.all_eq_true] at h
  intro c hc
  have := h.2 c hc
  simp only [goodChar, Bool.or_eq_true, decide_eq_true_eq]
  exact Or.inl (Or.inl this)

theorem digits_ne_plus {ds : List Char} (h : isDigits ds = true) :
    ∀ c ∈ ds, c ≠ '+' := by
  unfold isDigits at h
  rw [Bool.and_eq_true, List.all_eq_true] at h
  intro c hc hcp
  subst hcp
  have := h.2 _ hc
  simp at this

theorem dicePart_chars_good {p : List Char} (h : isDicePart p = true) :
    ∀ c ∈ p, goodChar c = true := by
  obtain ⟨ds, hp, hds⟩ := isDicePart_decomp h
  subst hp
  intro c hc
  rcases List.mem_append.mp hc with hc | hc
  · exact digits_chars_good hds c hc
  · simp only [List.mem_singleton] at hc
    subst hc
    decide

theorem dicePart_ne_plus {p : List Char} (h : isDicePart p = true) :
    ∀ c ∈ p, c ≠ '+' := by
  obtain ⟨ds, hp, hds⟩ := isDicePart_decomp h
  subst hp
  intro c hc
  rcases List.mem_append.mp hc with hc | hc
  · exact digits_ne_plus hds c hc
  · simp only [List.mem_singleton] at hc
    subst hc
    decide

theorem all_good_of_split : ∀ cs : List Char,
    (∀ p ∈ pySplit '+' cs, ∀ c ∈ p, goodChar c = true) →
    ∀ c ∈ cs, goodChar c = true := by
  intro cs
  induction cs with
  | nil => intro _ c hc; simp at hc
  | cons a rest ih =>
    intro h
    cases hr : pySplit '+' rest with
    | nil => exact absurd hr (pySplit_ne_nil _ rest)
    | cons p ps =>
      have hstep : pySplit '+' (a :: rest) =
          if a = '+' then [] :: p :: ps else (a :: p) :: ps := by
        have h0 : pySplit '+' (a :: rest) =
            (match pySplit '+' rest with
             | [] => [[a]]
             | p3 :: ps3 =>
               if a = '+' then [] :: p3 :: ps3 else (a :: p3) :: ps3) := rfl
        rw [h0, hr]
      by_cases ha : a = '+'
      · rw [if_pos ha] at hstep
        intro c hc
        rcases List.mem_cons.mp hc with hca | hcr
        · subst hca; rw [ha]; decide
        · refine ih ?_ c hcr
          intro p2 hp2 c2 hc2
          refine h p2 ?_ c2 hc2
          rw [hstep]
          exact List.mem_cons_of_mem _ (hr ▸ hp2)
      · rw [if_neg ha] at hstep
        intro c hc
        rcases List.mem_cons.mp hc with hca | hcr
        · subst hca
          exact h (c :: p) (by rw [hstep]; exact List.mem_cons_self _ _) c
            (List.mem_cons_self _ _)
        · refine ih ?_ c hcr
          intro p2 hp2 c2 hc2
          rcases List.mem_cons.mp (hr ▸ hp2) with hpp | hps
          · subst hpp
            exact h (a :: p2) (by rw [hstep]; exact List.mem_cons_self _ _)
              c2 (List.mem_cons_of_mem _ hc2)
          · exact h p2 (by rw [hstep]; exact List.mem_cons_of_mem _ hps) c2 hc2

theorem matchStd_good {cs : List Char} (h : matchStd cs = true) :
    ∀ c ∈ cs, goodChar c = true := by
  apply all_good_of_split
  intro p hp c hc
  unfold matchStd at h
  cases hsp : pySplit '+' cs with
  | nil => rw [hsp] at h hp; simp at hp
  | cons p1 rest =>
    cases rest with
    | nil =>
      rw [hsp] at h hp
      simp only [List.mem_singleton] at hp
      subst hp
      exact dicePart_chars_good h c hc
    | cons p2 rest2 =>
      cases rest2 with
      | nil =>
        rw [hsp] at h hp
        rw [Bool.and_eq_true] at h
        simp only [List.mem_cons, List.not_mem_nil, or_false] at hp
        rcases hp with hp | hp
        · exact dicePart_chars_good h.1 c (hp ▸ hc)
        · exact digits_chars_good h.2 c (hp ▸ hc)
      | cons p3 rest3 =>
        rw [hsp] at h
        simp at h

theorem map_toUpper_eq_self :
    ∀ {cs : List Char}, (∀ c ∈ cs, goodChar c = true) →
      cs.map Char.toUpper = cs
  | [], _ => rfl
  | c :: rest, h => by
    rw [List.map_cons, goodChar_toUpper (h c (List.mem_cons_self c rest)),
      map_toUpper_eq_self (fun x hx => h x (List.mem_cons_of_mem c hx))]

theorem cleanCode_eq_self {cs : List Char}
    (h : ∀ c ∈ cs, goodChar c = true) : cleanCode cs = cs := by
  unfold cleanCode
  rw [stripChars_eq_self (fun c hc => goodChar_not_ws (h c hc)),
    map_toUpper_eq_self h,
    List.filter_eq_self.mpr (fun c hc => goodChar_ne_space (h c hc))]

theorem digitChar_isDigit {n : Nat} (h : n < 10) :
    (Nat.digitChar n).isDigit = true := by
  interval_cases n <;> decide

theorem toDigitsCore_all_digit :
    ∀ (fuel n : Nat) (ds : List Char), ds.all Char.isDigit = true →
      (Nat.toDigitsCore 10 fuel n ds).all Char.isDigit = true := by
  intro fuel
  induction fuel with
  | zero => intro n ds h; exact h
  | succ f ih =>
    intro n ds h
    have hd : (Nat.digitChar (n % 10)).isDigit = true :=
      digitChar_isDigit (Nat.mod_lt _ (by omega))
    show (if n / 10 = 0 then Nat.digitChar (n % 10) :: ds
          else Nat.toDigitsCore 10 f (n / 10)
            (Nat.digitChar (n % 10) :: ds)).all Char.isDigit = true
    split
    · simp [hd, h]
    · exact ih _ _ (by simp [hd, h])

theorem toDigitsCore_acc_ne_nil :
    ∀ (fuel n : Nat) (ds : List Char), ds ≠ [] →
      Nat.toDigitsCore 10 fuel n ds ≠ [] := by
  intro fuel
  induction fuel with
  | zero => intro n ds h; exact h
  | succ f ih =>
    intro n ds _
    show (if n / 10 = 0 then Nat.digitChar (n % 10) :: ds
          else Nat.toDigitsCore 10 f (n / 10)
            (Nat.digitChar (n % 10) :: ds)) ≠ []
    split
    · simp
    · exact ih _ _ (by simp)

theorem toDigits_ne_nil (n : Nat) : Nat.toDigits 10 n ≠ [] := by
  show (if n / 10 = 0 then Nat.digitChar (n % 10) :: ([] : List Char)
        else Nat.toDigitsCore 10 n (n / 10)
          (Nat.digitChar (n % 10) :: [])) ≠ []
  split
  · simp
  · exact toDigitsCore_acc_ne_nil _ _ _ (by simp)

theorem natRepr_isDigits (n : Nat) : isDigits (natRepr n).data = true := by
  have hdata : (natRepr n).data = Nat.toDigits 10 n := rfl
  unfold isDigits
  rw [hdata, Bool.and_eq_true]
  constructor
  · cases hl : Nat.toDigits 10 n with
    | nil => exact absurd hl (toDigits_ne_nil n)
    | cons a rest => rfl
  · exact toDigitsCore_all_digit _ _ _ rfl

theorem twoD_ok : matchStd ("2D" : String).data = true ∧
    ∀ c ∈ ("2D" : String).data, goodChar c = true := by decide

theorem isDicePart_concat {ds : List Char} (h : isDigits ds = true) :
    isDicePart (ds ++ ['D']) = true := by
  unfold isDicePart
  rw [List.dropLast_concat, List.getLast?_concat]
  simp [h]

theorem matchStd_single {p : List Char} (h : isDicePart p = true) :
    matchStd p = true := by
  unfold matchStd
  rw [pySplit_sepFree '+' _ (dicePart_ne_plus h)]
  exact h

theorem matchStd_pair {p q : List Char} (hp : isDicePart p = true)
    (hq : isDigits q = true) : matchStd (p ++ '+' :: q) = true := by
  unfold matchStd
  rw [pySplit_append_sep '+' p q (dicePart_ne_plus hp),
    pySplit_sepFree '+' _ (digits_ne_plus hq)]
  simp [hp, hq]

theorem good_pair {p q : List Char} (hp : isDicePart p = true)
    (hq : isDigits q = true) : ∀ c ∈ p ++ '+' :: q, goodChar c = true := by
  intro c hc
  rcases List.mem_append.mp hc with hc | hc
  · exact dicePart_chars_good hp c hc
  · rcases List.mem_cons.mp hc with hc | hc
    · subst hc; decide
    · exact digits_chars_good hq c hc

theorem matchOneOrTwo_head {cs base : List Char} {rest : List (List Char)}
    (hsp : pySplit '+' cs = base :: rest) (h : matchOneOrTwo cs = true) :
    isDicePart base = true := by
  unfold matchOneOrTwo at h
  rw [hsp] at h
  cases rest with
  | nil => simp at h
  | cons q rest2 =>
    cases rest2 with
    | nil =>
      rw [Bool.and_eq_true] at h
      exact h.1
    | cons r rest3 =>
      cases rest3 with
      | nil =>
        rw [Bool.and_eq_true, Bool.and_eq_true] at h
        exact h.1.1
      | cons t rest4 => simp at h

theorem matchNumPlusNum_shape {cs : List Char}
    (h : matchNumPlusNum cs = true) :
    ∃ a b, pySplit '+' cs = [a, b] ∧ isDigits a = true ∧ isDigits b = true := by
  unfold matchNumPlusNum at h
  cases hsp : pySplit '+' cs with
  | nil => rw [hsp] at h; simp at h
  | cons a rest =>
    cases rest with
    | nil => rw [hsp] at h; simp at h
    | cons b rest2 =>
      cases rest2 with
      | nil =>
        rw [hsp, Bool.and_eq_true] at h
        exact ⟨a, b, rfl, h.1, h.2⟩
      | cons t rest3 => rw [hsp] at h; simp at h

/-- Every output of the dice-code normalizer matches the canonical grammar
`^\d+D(\+\d+)?$` and is built from digit, `D`, `+` characters only. -/
theorem normalize_output (s : String) :
    matchStd (normalize_dice_code s).data = true ∧
    ∀ c ∈ (normalize_dice_code s).data, goodChar c = true := by
  by_cases h0 : s = ""
  · rw [normalize_dice_code, if_pos h0]
    exact twoD_ok
  · rw [normalize_dice_code, if_neg h0]
    by_cases h1 : matchStd (cleanCode s.data) = true
    · simp only [h1, if_true]
      exact ⟨by simp, matchStd_good h1⟩
    · simp only [h1, if_false, Bool.false_eq_true]
      by_cases h2 : matchOneOrTwo (cleanCode s.data) = true
      · simp only [h2, if_true]
        cases hsp : pySplit '+' (cleanCode s.data) with
        | nil => exact absurd hsp (pySplit_ne_nil _ _)
        | cons base rest =>
          have hbase := matchOneOrTwo_head hsp h2
          by_cases htb : sumDigitParts rest > 0
          · simp only [htb, if_true]
            have hds := natRepr_isDigits (sumDigitParts rest)
            have hdata : (String.mk base ++ "+" ++
                natRepr (sumDigitParts rest)).data =
                base ++ '+' :: (natRepr (sumDigitParts rest)).data := by
              simp [String.data_append]
            rw [hdata]
            exact ⟨matchStd_pair hbase hds, good_pair hbase hds⟩
          · simp only [htb, if_false]
            exact ⟨matchStd_single hbase, dicePart_chars_good hbase⟩
      · simp only [h2, if_false, Bool.false_eq_true]
        by_cases h3 : isDigits (cleanCode s.data) = true
        · simp only [h3, if_true]
          have hdata : (String.mk (cleanCode s.data) ++ "D").data =
              cleanCode s.data ++ ['D'] := by simp [String.data_append]
          rw [hdata]
          have hdp := isDicePart_concat h3
          exact ⟨matchStd_single hdp, dicePart_chars_good hdp⟩
        · simp only [h3, if_false, Bool.false_eq_true]
          by_cases h4 : matchNumPlusNum (cleanCode s.data) = true
          · simp only [h4, if_true]
            obtain ⟨a, b, hsp, ha, hb⟩ := matchNumPlusNum_shape h4
            rw [hsp]
            have hdata : (String.mk a ++ "D+" ++ String.mk b).data =
                (a ++ ['D']) ++ '+' :: b := by
              simp [String.data_append]
            rw [hdata]
            have hdp := isDicePart_concat ha
            exact ⟨matchStd_pair hdp hb, good_pair hdp hb⟩
          · simp only [h4, if_false, Bool.false_eq_true]
            exact twoD_ok

/-- Strings already in the canonical grammar are fixed points of the
normalizer. -/
theorem normalize_fix {s : String} (h : matchStd s.data = true) :
    normalize_dice_code s = s := by
  have hne : s ≠ "" := by
    intro h0
    subst h0
    exact absurd h (by decide)
  have hclean : cleanCode s.data = s.data := cleanCode_eq_self (matchStd_good h)
  rw [normalize_dice_code, if_neg hne]
  simp only [hclean, h, if_true]

/-! ### Wild-die and roll lemmas -/

theorem d6_bounds (g : Nat → Fin 6) (i : Nat) : 1 ≤ d6 g i ∧ d6 g i ≤ 6 := by
  unfold d6
  have := (g i).is_lt
  omega

/-- Invariant of the wild-die loop: the subtotal grows by at least 1; if the
loop reports no explosion it took a single roll with a face in `[1, 5]`; if
it started unexploded and reports an explosion, at least one 6 was summed
before the stopping face, so the subtotal is at least 7. -/
theorem rollWildAux_bounds :
    ∀ (fuel : Nat) (g : Nat → Fin 6) (i total : Nat) (ex : Bool)
      (comps : List String) (t : Nat) (e : Bool) (c2 : List String),
      rollWildAux g fuel i total ex comps = some (t, e, c2) →
      total + 1 ≤ t ∧
      (e = false → ex = false ∧ t ≤ total + 5) ∧
      (ex = false → e = true → total + 7 ≤ t) := by
  intro fuel
  induction fuel with
  | zero =>
    intro g i total ex comps t e c2 h
    simp [rollWildAux] at h
  | succ f ih =>
    intro g i total ex comps t e c2 h
    have hb1 : 1 ≤ d6 g i := (d6_bounds g i).1
    have hb6 : d6 g i ≤ 6 := (d6_bounds g i).2
    simp only [rollWildAux] at h
    split at h
    · rename_i hfe
      rw [Option.some.injEq, Prod.mk.injEq, Prod.mk.injEq] at h
      obtain ⟨ht, he, _⟩ := h
      refine ⟨by omega, fun hef => ⟨by rw [he]; exact hef, by omega⟩, ?_⟩
      intro hx het
      rw [← he, hx] at het
      exact absurd het (by simp)
    · rename_i hne1
      split at h
      · rename_i hfe6
        have hrec := ih g (i + 1) (total + d6 g i) true comps t e c2 h
        rw [hfe6] at hrec
        obtain ⟨a1, a2, _⟩ := hrec
        refine ⟨by omega, fun hef => absurd (a2 hef).1 (by simp), ?_⟩
        intro _ _
        omega
      · rename_i hne6
        rw [Option.some.injEq, Prod.mk.injEq, Prod.mk.injEq] at h
        obtain ⟨ht, he, _⟩ := h
        refine ⟨by omega, fun hef => ⟨by rw [he]; exact hef, by omega⟩, ?_⟩
        intro hx het
        rw [← he, hx] at het
        exact absurd het (by simp)

/-! ### Claim theorems: dice engine -/

/-- Claim C1 (counterexample). The claim says `individual_dice` has more
than `N` entries when the wild die explodes and that every entry is in
`[1, 6]`. With the random source 6-then-1 and the code `"1D"` (`N = 1`),
the wild die explodes, yet `individual_dice` is `[7]`: it still has exactly
`N = 1` entries (not more), and its entry 7 is outside `[1, 6]` — the
exploded wild-die subtotal is appended as one list entry. -/
theorem C1_individual_dice_counterexample :
    ((roll (fun i => if i = 0 then (5 : Fin 6) else (0 : Fin 6)) 10 true
        "1D" 0 none).map
      (fun r => (r.individual_dice, r.wild_die_exploded))) =
      some ([7], true) ∧
    ¬(1 < ([7] : List Nat).length) ∧
    ¬(∀ x ∈ ([7] : List Nat), 1 ≤ x ∧ x ≤ 6) := by
  refine ⟨by decide, by decide, by decide⟩

/-- Claim C1 (amended). For every dice code that parses to `N ≥ 1` dice,
every random source, and the wild die enabled, `individual_dice` has
exactly `N` entries: the first `N − 1` (the ordinary dice) are each in
`[1, 6]`, and the last entry is the wild-die subtotal, which is in `[1, 5]`
when the wild die did not explode and at least 7 when it did. -/
theorem C1_individual_dice_amended (g : Nat → Fin 6) (fuel : Nat)
    (code : String) (m : Int) (n : Nat) (b : Int) (r : DiceResult)
    (hp : parse_dice_code code = .ok (n, b)) (hn : 1 ≤ n)
    (hr : roll g fuel true code m none = some r) :
    r.individual_dice.length = n ∧
    (∀ x ∈ r.individual_dice.dropLast, 1 ≤ x ∧ x ≤ 6) ∧
    ∃ w, r.individual_dice.getLast? = some w ∧ r.wild_die_result = some w ∧
      (r.wild_die_exploded = false → 1 ≤ w ∧ w ≤ 5) ∧
      (r.wild_die_exploded = true → 7 ≤ w) := by
  simp only [roll, hp] at hr
  rw [if_neg (by omega)] at hr
  simp only [if_true] at hr
  cases hw : roll_wild_die g (n - 1) fuel with
  | none => rw [hw] at hr; simp at hr
  | some trip =>
    obtain ⟨wt, wex, wcomps⟩ := trip
    rw [hw] at hr
    rw [Option.some.injEq] at hr
    subst hr
    have hb := rollWildAux_bounds fuel g (n - 1) 0 false
      [] wt wex wcomps hw
    refine ⟨?_, ?_, wt, ?_, rfl, ?_, ?_⟩
    · simp only [List.length_append, List.length_map, List.length_range,
        List.length_singleton]
      omega
    · intro x hx
      rw [List.dropLast_concat] at hx
      obtain ⟨k, _, hk⟩ := List.mem_map.mp hx
      have := d6_bounds g k
      omega
    · exact List.getLast?_concat _
    · intro hex
      have := hb.2.1 hex
      omega
    · intro hex
      have := hb.2.2 rfl hex
      omega

/-- Claim C1 (witness): instantiating the amended claim at the constant
face-2 source with code `"2D"` (two entries, faces 2 and wild subtotal 2). -/
theorem C1_individual_dice_amended_witness :
    (⟨4, "2D", [2, 2], 0, "[2] Wild: 2 = **4**", some 2, false, [], none,
      none, none⟩ : DiceResult).individual_dice.length = 2 :=
  (C1_individual_dice_amended (fun _ => (1 : Fin 6)) 5 "2D" 0 2 0
    ⟨4, "2D", [2, 2], 0, "[2] Wild: 2 = **4**", some 2, false, [], none,
      none, none⟩ (by decide) (by decide) (by decide)).1

/-- Claim C2. The wild-die sub-roll adds each d6 face to a running
subtotal; a face of 1 stops at once, appending the complication
"Wild die complication (rolled 1)" and returning the subtotal; a face of 6
marks `exploded := true` and continues; a face in `[2, 5]` stops with no
complication. For the 6-then-1 source, `roll` of `"1D"` reports
`wild_die_exploded = true` with the complication (subtotal 7); for the
constant-1 source it reports subtotal exactly 1, the complication, and no
explosion. -/
theorem C2_wild_die_rule :
    (∀ (g : Nat → Fin 6) (fuel i total : Nat) (ex : Bool)
        (comps : List String),
      d6 g i = 1 →
      rollWildAux g (fuel + 1) i total ex comps =
        some (total + 1, ex, comps ++ [wildComplication])) ∧
    (∀ (g : Nat → Fin 6) (fuel i total : Nat) (ex : Bool)
        (comps : List String),
      d6 g i = 6 →
      rollWildAux g (fuel + 1) i total ex comps =
        rollWildAux g fuel (i + 1) (total + 6) true comps) ∧
    (∀ (g : Nat → Fin 6) (fuel i total : Nat) (ex : Bool)
        (comps : List String),
      2 ≤ d6 g i → d6 g i ≤ 5 →
      rollWildAux g (fuel + 1) i total ex comps =
        some (total + d6 g i, ex, comps)) ∧
    ((roll (fun i => if i = 0 then (5 : Fin 6) else (0 : Fin 6)) 10 true
        "1D" 0 none).map
      (fun r => (r.wild_die_exploded, r.complications, r.wild_die_result)) =
      some (true, [wildComplication], some 7)) ∧
    ((roll (fun _ => (0 : Fin 6)) 10 true "1D" 0 none).map
      (fun r => (r.wild_die_exploded, r.complications, r.wild_die_result)) =
      some (false, [wildComplication], some 1)) := by
  refine ⟨?_, ?_, ?_, by decide, by decide⟩
  · intro g fuel i total ex comps h
    simp [rollWildAux, h]
  · intro g fuel i total ex comps h
    simp [rollWildAux, h]
  · intro g fuel i total ex comps h2 h5
    have hne1 : ¬d6 g i = 1 := by omega
    have hne6 : ¬d6 g i = 6 := by omega
    simp [rollWildAux, hne1, hne6]

/-- Claim C2 (witness): one wild roll of the constant-1 source stops at
subtotal 1 with the complication. -/
theorem C2_wild_die_rule_witness :
    rollWildAux (fun _ => (0 : Fin 6)) 4 0 0 false [] =
      some (0 + 1, false, [] ++ [wildComplication]) :=
  C2_wild_die_rule.1 (fun _ => (0 : Fin 6)) 3 0 0 false [] (by decide)

/-- Claim C3. `roll` never raises: a dice code rejected by the parser
produces (for every random source, fuel, wild-die setting, modifier and
difficulty argument) the error result dictionary, whose `total` is 0 and
whose breakdown is the explanatory `"Error: ..."` string; and with the wild
die disabled (the only potentially non-terminating path being the wild-die
loop, modelled by fuel) `roll` returns a result dictionary on every input,
including every difficulty argument. -/
theorem C3_roll_never_raises :
    (∀ (g : Nat → Fin 6) (fuel : Nat) (w : Bool) (code : String) (m : Int)
        (d : Option String) (msg : String),
      parse_dice_code code = .error msg →
      roll g fuel w code m d = some (mkErrorRoll code msg) ∧
      (mkErrorRoll code msg).total = 0 ∧
      (mkErrorRoll code msg).breakdown = "Error: " ++ msg) ∧
    (∀ (g : Nat → Fin 6) (code : String) (m : Int) (d : Option String),
      (roll g 0 false code m d).isSome = true) := by
  constructor
  · intro g fuel w code m d msg hp
    refine ⟨?_, rfl, rfl⟩
    simp [roll, hp]
  · intro g code m d
    cases hp : parse_dice_code code with
    | error msg => simp [roll, hp]
    | ok nb =>
      obtain ⟨n, b⟩ := nb
      by_cases hn : n ≤ 0
      · simp [roll, hp, hn]
      · simp [roll, hp, hn]

/-- Claim C3 (witness): rolling the malformed code `"XYZ"` yields the
error result with total 0. -/
theorem C3_roll_never_raises_witness :
    roll (fun _ => (0 : Fin 6)) 3 true "XYZ" 5 (some "moderate") =
      some (mkErrorRoll "XYZ" "Invalid dice code format: XYZ") ∧
    (mkErrorRoll "XYZ" "Invalid dice code format: XYZ").total = 0 ∧
    (mkErrorRoll "XYZ" "Invalid dice code format: XYZ").breakdown =
      "Error: " ++ "Invalid dice code format: XYZ" :=
  C3_roll_never_raises.1 (fun _ => (0 : Fin 6)) 3 true "XYZ" 5
    (some "moderate") "Invalid dice code format: XYZ" (by decide)

/-- Claim C10. The empty dice code is falsy, so `_parse_dice_code` returns
`(0, 0)` without touching the error branch; `roll` then takes the
no-dice path: for every modifier `m`, the result has `total = m`, an empty
`individual_dice`, no wild-die result, no complication, and no error
marker — not the malformed-code outcome. -/
theorem C10_empty_code (m : Int) (g : Nat → Fin 6) (fuel : Nat) (w : Bool) :
    parse_dice_code "" = .ok (0, 0) ∧
    roll g fuel w "" m none =
      some { total := m, dice_code := "", individual_dice := [], bonus := m,
             breakdown := if m ≠ 0 then "No dice + " ++ intRepr m else "0",
             wild_die_result := none, wild_die_exploded := false,
             complications := [], difficulty := none, success := none,
             error := none } := by
  refine ⟨rfl, ?_⟩
  have hp : parse_dice_code "" = .ok (0, 0) := rfl
  simp [roll, hp]

/-! ### Claim theorems: parser -/

/-- Claim C8. Dice-code normalization is total (a plain Lean function) and
idempotent: normalizing twice is the same as normalizing once, for every
input string, because every normalizer output is a canonical-grammar string
and such strings are fixed points of the normalizer. -/
theorem C8_normalize_idempotent (s : String) :
    normalize_dice_code (normalize_dice_code s) = normalize_dice_code s :=
  normalize_fix (normalize_output s).1

theorem mem_dictInsert_elim {α : Type} {P : String × α → Prop}
    {d : List (String × α)} {k : String} {v : α}
    (hd : ∀ p ∈ d, P p) (hkv : P (k, v)) :
    ∀ p ∈ dictInsert d k v, P p := by
  intro p hp
  unfold dictInsert at hp
  split at hp
  · obtain ⟨q, hq, hpq⟩ := List.mem_map.mp hp
    by_cases hqk : (q.1 == k) = true
    · rw [if_pos hqk] at hpq
      subst hpq
      exact hkv
    · rw [if_neg hqk] at hpq
      subst hpq
      exact hd q hq
  · rcases List.mem_append.mp hp with hp | hp
    · exact hd p hp
    · simp only [List.mem_singleton] at hp
      subst hp
      exact hkv

theorem foldl_preserves {γ : Type} (P : String × String → Prop)
    (step : List (String × String) → γ → List (String × String))
    (hstep : ∀ acc x, (∀ p ∈ acc, P p) → ∀ p ∈ step acc x, P p) :
    ∀ (l : List γ) (acc : List (String × String)), (∀ p ∈ acc, P p) →
      ∀ p ∈ l.foldl step acc, P p := by
  intro l
  induction l with
  | nil => intro acc h p hp; exact h p hp
  | cons x rest ih =>
    intro acc h p hp
    exact ih (step acc x) (hstep acc x h) p hp

theorem jsonAttrValue_matchStd (attrData : List (String × JsonVal))
    (attr : String) : matchStd (jsonAttrValue attrData attr).data = true := by
  unfold jsonAttrValue
  split
  · exact (normalize_output _).1
  · decide

theorem csvAttrValue_matchStd (row : List (String × String))
    (attr : String) : matchStd (csvAttrValue row attr).data = true := by
  unfold csvAttrValue
  split
  · split
    · exact (normalize_output _).1
    · decide
  · decide

theorem jsonSkills_values (sd : List (String × JsonVal)) :
    ∀ p ∈ jsonSkills sd, matchStd p.2.data = true := by
  refine foldl_preserves _ _ ?_ sd [] (by simp)
  intro acc x hacc p hp
  unfold jsonSkillStep at hp
  by_cases ht : pythonTruthy x.2 = true
  · simp only [ht, if_true] at hp
    exact mem_dictInsert_elim hacc (normalize_output _).1 p hp
  · simp only [ht, if_false, Bool.false_eq_true] at hp
    exact hacc p hp

theorem csvSkills_props (row : List (String × String)) :
    ∀ p ∈ csvSkills row, is_valid_skill p.1 = true ∧
      matchStd p.2.data = true := by
  refine foldl_preserves _ _ ?_ row [] (by simp)
  intro acc x hacc p hp
  by_cases h1 : x.2 ≠ "" ∧ stripString x.2 ≠ ""
  · rw [if_pos h1] at hp
    by_cases h2 : is_valid_skill (normalize_skill_name x.1) = true
    · rw [if_pos h2] at hp
      exact mem_dictInsert_elim hacc ⟨h2, (normalize_output _).1⟩ p hp
    · rw [if_neg h2] at hp
      exact hacc p hp
  · rw [if_neg h1] at hp
    exact hacc p hp

theorem textSkills_props (ms : List (String × String)) :
    ∀ p ∈ textSkills ms, is_valid_skill p.1 = true ∧
      matchStd p.2.data = true := by
  refine foldl_preserves _ _ ?_ ms [] (by simp)
  intro acc x hacc p hp
  by_cases h2 : is_valid_skill (normalize_skill_name x.1) = true
  · simp only [h2, if_true] at hp
    exact mem_dictInsert_elim hacc ⟨h2, (normalize_output _).1⟩ p hp
  · simp only [h2, if_false, Bool.false_eq_true] at hp
    exact hacc p hp

/-- Claim C7. Every `Character` produced by any of the three parse
strategies carries all six fixed attribute names (in canonical order;
absent or unparseable ones default to `"2D"` inside the per-attribute
resolution), and every dice-code string stored in its attributes or skills
matches the canonical grammar `^\d+D(\+\d+)?$`. -/
theorem map_fst_graph {β : Type} (f : String → β) (L : List String) :
    (L.map (fun a => (a, f a))).map Prod.fst = L := by
  induction L with
  | nil => rfl
  | cons a rest ih => simp [ih]

theorem C7_stored_codes :
    (∀ (j : JsonVal) (c : StarWarsCharacter),
      parse_json_data j = .ok c → charDiceCodesOk c) ∧
    (∀ row : List (String × String), charDiceCodesOk (parse_csv_data row)) ∧
    (∀ ext : TextExtraction, charDiceCodesOk (parse_text_data ext)) := by
  refine ⟨?_, ?_, ?_⟩
  · intro j c h
    unfold parse_json_data at h
    split at h
    · simp at h
    · split at h
      · simp at h
      · split at h
        · simp at h
        · split at h
          · rw [Except.ok.injEq] at h
            subst h
            refine ⟨?_, ?_, ?_⟩
            · exact map_fst_graph _ _
            · intro p hp
              obtain ⟨a, _, hap⟩ := List.mem_map.mp hp
              rw [← hap]
              exact jsonAttrValue_matchStd _ a
            · intro p hp
              exact jsonSkills_values _ p hp
          all_goals simp at h
  · intro row
    refine ⟨?_, ?_, ?_⟩
    · exact map_fst_graph _ _
    · intro p hp
      obtain ⟨a, _, hap⟩ := List.mem_map.mp hp
      rw [← hap]
      exact csvAttrValue_matchStd _ a
    · intro p hp
      exact (csvSkills_props row p hp).2
  · intro ext
    refine ⟨?_, ?_, ?_⟩
    · exact map_fst_graph _ _
    · intro p hp
      obtain ⟨a, _, hap⟩ := List.mem_map.mp hp
      rw [← hap]
      dsimp only
      split
      · exact (normalize_output _).1
      · decide
    · intro p hp
      exact (textSkills_props ext.skillMatches p hp).2

/-- Claim C7 (witness): the JSON parse of the empty object yields a
character with the six attributes defaulted to `"2D"`. -/
theorem C7_stored_codes_witness :
    charDiceCodesOk
      ⟨.str "Unknown", .str "Unknown",
       [("dexterity", "2D"), ("knowledge", "2D"), ("mechanical", "2D"),
        ("perception", "2D"), ("strength", "2D"), ("technical", "2D")],
       [], 1, 5, 0, false, [], 1000⟩ :=
  C7_stored_codes.1 (JsonVal.obj [])
    ⟨.str "Unknown", .str "Unknown",
     [("dexterity", "2D"), ("knowledge", "2D"), ("mechanical", "2D"),
      ("perception", "2D"), ("strength", "2D"), ("technical", "2D")],
     [], 1, 5, 0, false, [], 1000⟩ (by rfl)

/-- Claim C4 (counterexample). The JSON skills loop stores every normalized
key whose dice code is truthy without checking it against the taxonomy:
parsing `{"skills": {"notaskill": "3D"}}` yields a character whose skills
map contains the unrecognized key `"notaskill"`. -/
theorem C4_json_counterexample :
    (parse_json_data
        (.obj [("skills", .obj [("notaskill", .str "3D")])])).toOption.map
      (fun c => c.skills) = some [("notaskill", "3D")] ∧
    is_valid_skill "notaskill" = false := by
  exact ⟨by decide, by decide⟩

/-- Claim C4 (amended). For the CSV and free-text parse strategies, every
key of the resulting skills map is a recognized skill name (unrecognized
keys are silently dropped, never an error); the JSON strategy, however,
stores every normalized skill key with a truthy dice code without a
validity check. -/
theorem C4_recognized_skills_amended :
    (∀ (row : List (String × String)) (p : String × String),
      p ∈ (parse_csv_data row).skills → is_valid_skill p.1 = true) ∧
    (∀ (ext : TextExtraction) (p : String × String),
      p ∈ (parse_text_data ext).skills → is_valid_skill p.1 = true) := by
  constructor
  · intro row p hp
    exact (csvSkills_props row p hp).1
  · intro ext p hp
    exact (textSkills_props ext.skillMatches p hp).1

/-- Claim C4 (witness): the recognized skill `"blaster"` survives a CSV
parse and is a valid skill. -/
theorem C4_recognized_skills_amended_witness :
    is_valid_skill ("blaster", "4D").1 = true :=
  C4_recognized_skills_amended.1 [("blaster", "4D")] ("blaster", "4D")
    (by decide)

theorem safe_int_of_none {v : String} {d : Int} (h : strToInt? v = none) :
    safe_int v d = d := by
  unfold safe_int
  split
  · rw [h]
  · rfl

theorem safe_int_nonneg {v : String} {d : Int}
    (hd : 0 ≤ d) (hn : ∀ n, strToInt? v = some n → 0 ≤ n) :
    0 ≤ safe_int v d := by
  unfold safe_int
  split
  · cases hv : strToInt? v with
    | none => exact hd
    | some n => exact hn n hv
  · exact hd

/-- Claim C5 (counterexample). The JSON parse applies `int()` directly:
a negative `force_points` is stored as-is (violating the `≥ 0` invariant),
and a non-numeric `credits` makes the parse raise instead of coercing to
the documented default. -/
theorem C5_json_counterexample :
    (parse_json_data (.obj [("force_points", .num (-1))])).toOption.map
      (fun c => c.force_points) = some (-1) ∧
    ¬(0 ≤ (-1 : Int)) ∧
    (parse_json_data (.obj [("credits", .str "lots")])).toOption.map
      (fun c => c.credits) = none := by
  exact ⟨by decide, by decide, by decide⟩

/-- Claim C5 (amended). For CSV parses the four numeric fields go through
`_safe_int`: a missing or non-numeric source value is coerced to the
documented default (1, 5, 0, 1000), and the stored field is nonnegative
whenever every numeric reading of the source is nonnegative (a negative
source number is stored as-is). For free-text parses the fields are always
nonnegative, with the same defaults when the label is absent. The JSON
parse instead defaults only missing keys, raises on non-numeric values,
and stores negative values unchanged. -/
theorem C5_numeric_fields_amended :
    (∀ row : List (String × String),
      (strToInt? (csvField row "Force Points" "Force_Points" "1") = none →
        (parse_csv_data row).force_points = 1) ∧
      ((∀ n, strToInt? (csvField row "Force Points" "Force_Points" "1") =
          some n → 0 ≤ n) → 0 ≤ (parse_csv_data row).force_points) ∧
      (strToInt? (csvField row "Character Points" "Character_Points" "5") =
          none → (parse_csv_data row).character_points = 5) ∧
      ((∀ n, strToInt? (csvField row "Character Points" "Character_Points"
          "5") = some n → 0 ≤ n) →
        0 ≤ (parse_csv_data row).character_points) ∧
      (strToInt? (csvField row "Dark Side Points" "Dark_Side_Points" "0") =
          none → (parse_csv_data row).dark_side_points = 0) ∧
      ((∀ n, strToInt? (csvField row "Dark Side Points" "Dark_Side_Points"
          "0") = some n → 0 ≤ n) →
        0 ≤ (parse_csv_data row).dark_side_points) ∧
      (strToInt? ((pyLookup row "Credits").getD "1000") = none →
        (parse_csv_data row).credits = 1000) ∧
      ((∀ n, strToInt? ((pyLookup row "Credits").getD "1000") = some n →
          0 ≤ n) → 0 ≤ (parse_csv_data row).credits)) ∧
    (∀ ext : TextExtraction,
      0 ≤ (parse_text_data ext).force_points ∧
      0 ≤ (parse_text_data ext).character_points ∧
      0 ≤ (parse_text_data ext).dark_side_points ∧
      0 ≤ (parse_text_data ext).credits ∧
      (ext.fpMatch = none → (parse_text_data ext).force_points = 1) ∧
      (ext.cpMatch = none → (parse_text_data ext).character_points = 5) ∧
      (ext.dspMatch = none → (parse_text_data ext).dark_side_points = 0) ∧
      (ext.creditsMatch = none → (parse_text_data ext).credits = 1000)) := by
  constructor
  · intro row
    refine ⟨fun h => safe_int_of_none h, fun h => safe_int_nonneg (by omega) h,
      fun h => safe_int_of_none h, fun h => safe_int_nonneg (by omega) h,
      fun h => safe_int_of_none h, fun h => safe_int_nonneg (by omega) h,
      fun h => safe_int_of_none h, fun h => safe_int_nonneg (by omega) h⟩
  · intro ext
    refine ⟨?_, ?_, ?_, ?_, ?_, ?_, ?_, ?_⟩
    · cases hm : ext.fpMatch <;>
        simp [parse_text_data, hm, Int.natCast_nonneg]
    · cases hm : ext.cpMatch <;>
        simp [parse_text_data, hm, Int.natCast_nonneg]
    · cases hm : ext.dspMatch <;>
        simp [parse_text_data, hm, Int.natCast_nonneg]
    · cases hm : ext.creditsMatch <;>
        simp [parse_text_data, hm, Int.natCast_nonneg]
    · intro hm
      simp [parse_text_data, hm]
    · intro hm
      simp [parse_text_data, hm]
    · intro hm
      simp [parse_text_data, hm]
    · intro hm
      simp [parse_text_data, hm]

/-- Claim C5 (witness): a non-numeric CSV `Force Points` column is coerced
to the default 1. -/
theorem C5_numeric_fields_amended_witness :
    (parse_csv_data [("Force Points", "abc")]).force_points = 1 :=
  (C5_numeric_fields_amended.1 [("Force Points", "abc")]).1 (by decide)

/-- Claim C6. The live untrained-skill policy
(`calculate_untrained_skill_from_data`, the variant the bot calls) returns
the character's stored dice code for the skill's governing attribute
verbatim, with no penalty, whenever that governing attribute is stored on
the character. -/
theorem C6_untrained_verbatim (data attrs : List (String × JsonVal))
    (skill attrName : String) (v : JsonVal)
    (hga : get_skill_attribute skill = some attrName)
    (hobj : asObj (pyGetD data "attributes" (.obj [])) = some attrs)
    (hl : pyLookup attrs attrName = some v) :
    calculate_untrained_skill_from_data data skill = .ok v := by
  unfold calculate_untrained_skill_from_data
  simp [hobj, hga, hl]

/-- Claim C6 (witness): a character missing `"bargain"` but with
`perception = "3D+1"` resolves untrained `"bargain"` to exactly `"3D+1"`. -/
theorem C6_untrained_verbatim_witness :
    calculate_untrained_skill_from_data
      [("attributes", .obj [("perception", .str "3D+1")])] "bargain" =
      .ok (.str "3D+1") :=
  C6_untrained_verbatim
    [("attributes", .obj [("perception", .str "3D+1")])]
    [("perception", .str "3D+1")] "bargain" "perception" (.str "3D+1")
    (by decide) rfl rfl

theorem matchStd_nonempty {v : String} (h : matchStd v.data = true) :
    v ≠ "" := by
  intro hv
  subst hv
  exact absurd h (by decide)

theorem jsonAttrValue_of_lookup {attrData : List (String × JsonVal)}
    {attr : String} {v : String}
    (hl : pyLookup attrData attr = some (.str v)) (hv : v ≠ "") :
    jsonAttrValue attrData attr = normalize_dice_code v := by
  unfold jsonAttrValue firstTruthy
  rw [hl]
  have hvb : (v != "") = true := by simpa using hv
  simp [List.filterMap_cons, List.find?, pythonTruthy, hvb, pythonStr]

theorem pyLookup_cons_self {α : Type} (k : String) (v : α)
    (rest : List (String × α)) : pyLookup ((k, v) :: rest) k = some v := by
  unfold pyLookup
  rw [List.find?_cons_of_pos _ (by simp)]
  rfl

theorem pyLookup_cons_of_ne {α : Type} {k1 k : String} (h : ¬(k1 = k))
    (v : α) (rest : List (String × α)) :
    pyLookup ((k1, v) :: rest) k = pyLookup rest k := by
  unfold pyLookup
  rw [List.find?_cons_of_neg _ (by simp [h])]

theorem pyLookup_map_str : ∀ (ps : List (String × String)),
    (ps.map Prod.fst).Nodup → ∀ p ∈ ps,
      pyLookup (ps.map (fun p2 => (p2.1, JsonVal.str p2.2))) p.1 =
        some (.str p.2) := by
  intro ps
  induction ps with
  | nil => intro _ p hp; simp at hp
  | cons q rest ih =>
    intro hnd p hp
    rw [List.map_cons, List.nodup_cons] at hnd
    rcases List.mem_cons.mp hp with hpq | hpr
    · subst hpq
      rw [List.map_cons]
      exact pyLookup_cons_self _ _ _
    · rw [List.map_cons]
      rw [pyLookup_cons_of_ne ?_ _ _]
      · exact ih hnd.2 p hpr
      · intro hq
        exact hnd.1 (hq ▸ List.mem_map_of_mem Prod.fst hpr)

/-- The attribute dict rebuilt by the JSON parse from a serialized
attributes map with canonical keys and grammar-matching codes is the
original map. -/
theorem attrs_roundtrip : ∀ (L : List String) (ps : List (String × String))
    (full : List (String × JsonVal)),
    ps.map Prod.fst = L →
    (∀ p ∈ ps, pyLookup full p.1 = some (.str p.2) ∧
      matchStd p.2.data = true) →
    L.map (fun a => (a, jsonAttrValue full a)) = ps := by
  intro L
  induction L with
  | nil =>
    intro ps full h _
    cases ps with
    | nil => rfl
    | cons p ps2 => simp at h
  | cons a L2 ih =>
    intro ps full h hps
    cases ps with
    | nil => simp at h
    | cons p ps2 =>
      rw [List.map_cons] at h
      injection h with h1 h2
      rw [List.map_cons]
      obtain ⟨hl, hm⟩ := hps p (List.mem_cons_self _ _)
      have hv := matchStd_nonempty hm
      congr 1
      · have hval : jsonAttrValue full a = p.2 := by
          rw [← h1, jsonAttrValue_of_lookup hl hv]
          exact normalize_fix hm
        rw [hval, ← h1]
      · exact ih ps2 full h2 (fun q hq => hps q (List.mem_cons_of_mem _ hq))

theorem key_not_mem_any_false {α : Type} {acc : List (String × α)}
    {k : String} (h : k ∉ acc.map Prod.fst) :
    (acc.any (fun kv => kv.1 == k)) = false := by
  rw [List.any_eq_false]
  intro kv hkv
  rw [Bool.not_eq_true, beq_eq_false_iff_ne]
  intro he
  exact h (he ▸ List.mem_map_of_mem Prod.fst hkv)

theorem dictInsert_append {α : Type} {acc : List (String × α)} {k : String}
    {v : α} (h : k ∉ acc.map Prod.fst) :
    dictInsert acc k v = acc ++ [(k, v)] := by
  unfold dictInsert
  rw [key_not_mem_any_false h]
  simp

/-- The skills dict rebuilt by the JSON skills loop from a serialized
skills map with fixpoint keys, distinct keys, and grammar-matching codes
is the original map. -/
theorem jsonSkills_fold_roundtrip :
    ∀ (sk acc : List (String × String)),
    ((acc ++ sk).map Prod.fst).Nodup →
    (∀ p ∈ sk, normalize_skill_name p.1 = p.1 ∧ matchStd p.2.data = true) →
    (sk.map (fun p => (p.1, JsonVal.str p.2))).foldl jsonSkillStep acc =
      acc ++ sk := by
  intro sk
  induction sk with
  | nil => intro acc _ _; simp
  | cons p rest ih =>
    intro acc hnd hps
    rw [List.map_cons, List.foldl_cons]
    obtain ⟨hfix, hm⟩ := hps p (List.mem_cons_self _ _)
    have harg : jsonSkillStep acc (p.1, JsonVal.str p.2) =
        acc ++ [(p.1, p.2)] := by
      unfold jsonSkillStep
      have hv : pythonTruthy (JsonVal.str p.2) = true := by
        simp only [pythonTruthy, bne_iff_ne, ne_eq]
        exact matchStd_nonempty hm
      simp only [hv, if_true]
      have h2 : normalize_dice_code (pythonStr (JsonVal.str p.2)) = p.2 :=
        normalize_fix hm
      rw [hfix, h2]
      apply dictInsert_append
      intro hk
      rw [List.map_append] at hnd
      exact (List.disjoint_of_nodup_append hnd) hk
        (by rw [List.map_cons]; exact List.mem_cons_self _ _)
    rw [harg]
    have hres := ih (acc ++ [(p.1, p.2)]) (by simpa using hnd)
      (fun q hq => hps q (List.mem_cons_of_mem _ hq))
    rw [hres]
    simp

/-- Claim C9. Round-trip: parsing the JSON document produced by
serializing a `Character`'s `to_dict()` representation (serialization and
`json.loads` compose to the identity on the JSON value) reproduces the
character in every field. -/
theorem C9_json_roundtrip (c : StarWarsCharacter) (h : charStoredInv c) :
    parse_json_data (to_dict c) = .ok c := by
  obtain ⟨hak, hav, hsk, hsv⟩ := h
  have h0 : parse_json_data (to_dict c) = .ok
      { name := c.name, template := c.template,
        attributes := attributesList.map (fun attr => (attr,
          jsonAttrValue (c.attributes.map (fun p => (p.1, JsonVal.str p.2)))
            attr)),
        skills := jsonSkills (c.skills.map (fun p => (p.1, JsonVal.str p.2))),
        force_points := c.force_points,
        character_points := c.character_points,
        dark_side_points := c.dark_side_points,
        force_sensitive := c.force_sensitive,
        equipment := c.equipment, credits := c.credits } := rfl
  rw [h0]
  have hattrs : attributesList.map (fun attr => (attr,
      jsonAttrValue (c.attributes.map (fun p => (p.1, JsonVal.str p.2)))
        attr)) = c.attributes := by
    refine attrs_roundtrip attributesList c.attributes _ hak ?_
    intro p hp
    refine ⟨pyLookup_map_str c.attributes ?_ p hp, hav p hp⟩
    rw [hak]
    decide
  have hskills : jsonSkills
      (c.skills.map (fun p => (p.1, JsonVal.str p.2))) = c.skills := by
    have := jsonSkills_fold_roundtrip c.skills [] (by simpa using hsk) hsv
    simpa [jsonSkills] using this
  rw [hattrs, hskills]

/-- Claim C9 (witness): a concrete character round-trips through
`to_dict` and the JSON parse. -/
theorem C9_json_roundtrip_witness :
    parse_json_data (to_dict
      ⟨.str "Test", .str "Smuggler",
       [("dexterity", "3D+1"), ("knowledge", "2D"), ("mechanical", "2D"),
        ("perception", "3D"), ("strength", "2D"), ("technical", "2D")],
       [("blaster", "4D"), ("bargain", "3D+2")],
       1, 5, 0, false, [.str "Blaster Pistol"], 1000⟩) = .ok
      ⟨.str "Test", .str "Smuggler",
       [("dexterity", "3D+1"), ("knowledge", "2D"), ("mechanical", "2D"),
        ("perception", "3D"), ("strength", "2D"), ("technical", "2D")],
       [("blaster", "4D"), ("bargain", "3D+2")],
       1, 5, 0, false, [.str "Blaster Pistol"], 1000⟩ :=
  C9_json_roundtrip _ ⟨by decide, by decide, by decide, by decide⟩


